import Mathlib

/-!
Verification of the transfat driver (src/transfat/main.py) against its
natural-language specification.

The driver `main()` is a straight-line script that calls out to external
collaborators (configuration reading, root access, device discovery, the
transfer stages, unmount and fatsort).  We embed it as a function from the
runtime arguments and an environment (the results the collaborators would
return) to the trace of observable calls, in program order.  `system.abort`
is modelled as ending the trace (see `abortTrace`).
-/

/-- Observable events of one run of `main()`: each constructor is one call
site in src/transfat/main.py, carrying the arguments relevant to the
claims. -/
inductive Event where
  | getConfig : Event
  | abort : Int → Event
  | requestRoot : Event
  | checkFatsortAvailable : Event
  | findDeviceLocations : Event
  | getCorrespondingPathsLists : Event
  | filterOutExtensions : Event
  | convertAudioFiles : List String → Event
  | createDirectories : Event
  | copyFiles : Event
  | arminRename : Event
  | deleteFiles : List String → Event
  | deletePaths : List String → Int → Event
  | unmount : Event
  | fatsort : Event
  | done : Event
  deriving DecidableEq, Repr

/-- The runtime arguments of the run (`args` in main.py), as far as the
driver consults them. -/
structure Args where
  sources : List String
  destination : String
  nonInteractive : Bool
  noFatsort : Bool
  armin : Bool
  verbose : Bool
  quiet : Bool
  deriving DecidableEq, Repr

/-- Results of the external collaborators for this run: what
`getConfigurationSettings`, `requestRootAccess`, `fatsortAvailable`,
`findDeviceLocations`, `convertAudioFiles`, `unmount` and `fatsort` return
when the driver calls them. `deleteSources` is
`cfgSettings.getint("DeleteSources")`. -/
structure Env where
  configOk : Bool
  deleteSources : Int
  rootAccess : Bool
  fatsortAvailable : Bool
  devLoc : String
  mntLoc : String
  tmpFiles : List String
  unmountOk : Bool
  fatsortOk : Bool
  deriving DecidableEq, Repr

/-- Modelled from the spec: `system.abort` (transfat/system.py, not under
src/) terminates the process immediately with the given exit status
("every fatal error stops the run immediately with a clear message and
non-zero status").  Modelled as an abort event after which the trace
ends. -/
def abortTrace (code : Int) : List Event :=
  [Event.abort code]

/-- Lines 170-174 of main.py: the decision whether to call
`transfer.deletePaths`, and with which prompt flag.
`promptFlag = deleteSourceSetting - 1`; the call is made iff
`deleteSourceSetting and not (args.non_interactive and promptFlag)` is
truthy in Python.  Returns `some promptFlag` when `deletePaths` is
invoked, `none` otherwise. -/
def deleteSourcesStep (nonInteractive : Bool) (deleteSourceSetting : Int) :
    Option Int :=
  let promptFlag : Int := deleteSourceSetting - 1
  if deleteSourceSetting ≠ 0 ∧ ¬(nonInteractive = true ∧ promptFlag ≠ 0)
  then some promptFlag
  else none

/-- Lines 107-206 of main.py, after all the fatal startup checks have
passed: the five transfer stages, the optional armin rename, the
deletion steps, and the unmount/fatsort block. -/
def runTransfer (args : Args) (env : Env) : List Event :=
  [Event.getCorrespondingPathsLists, Event.filterOutExtensions,
   Event.convertAudioFiles env.tmpFiles, Event.createDirectories,
   Event.copyFiles]
  ++ (if args.armin then [Event.arminRename] else [])
  ++ [Event.deleteFiles env.tmpFiles]
  ++ (match deleteSourcesStep args.nonInteractive env.deleteSources with
      | some pf => [Event.deletePaths args.sources pf]
      | none => [])
  ++ (if args.noFatsort then [Event.done]
      else
        Event.unmount ::
          (if env.unmountOk then
            Event.fatsort ::
              (if env.fatsortOk then [Event.done] else abortTrace 1)
          else abortTrace 1))

/-- The whole of `main()` (src/transfat/main.py lines 36-206) as the trace
of its observable calls, in program order. -/
def mainRun (args : Args) (env : Env) : List Event :=
  Event.getConfig ::
    (if ¬env.configOk then abortTrace 1
     else
       (if args.noFatsort then [] else [Event.requestRoot])
       ++ (if ¬args.noFatsort ∧ ¬env.rootAccess then abortTrace 1
           else
             (if args.noFatsort then [] else [Event.checkFatsortAvailable])
             ++ (if ¬args.noFatsort ∧ ¬env.fatsortAvailable then abortTrace 1
                 else
                   Event.findDeviceLocations ::
                     (if env.devLoc = "" then abortTrace 1
                      else runTransfer args env))))

/-- The run gets past all four fatal startup checks (configuration read,
root access, fatsort availability, device discovery) and enters the
transfer stages. -/
def reachesTransfer (args : Args) (env : Env) : Prop :=
  env.configOk = true
    ∧ (args.noFatsort = true ∨ (env.rootAccess = true ∧ env.fatsortAvailable = true))
    ∧ env.devLoc ≠ ""

/-- Recognizes the `transfer.deletePaths` call (the only place a source
path can be deleted, and the only place a deletion prompt can be
issued). -/
def isDeletePathsEvent : Event → Bool
  | Event.deletePaths _ _ => true
  | _ => false

theorem deletePaths_mem_runTransfer (args : Args) (env : Env) (s : List String) (pf : Int) :
    Event.deletePaths s pf ∈ runTransfer args env ↔
      s = args.sources ∧ deleteSourcesStep args.nonInteractive env.deleteSources = some pf := by
  unfold runTransfer abortTrace
  cases hstep : deleteSourcesStep args.nonInteractive env.deleteSources <;>
    cases args.armin <;> cases args.noFatsort <;> cases env.unmountOk <;> cases env.fatsortOk <;>
      simp_all [List.mem_append]
  all_goals exact fun _ => eq_comm

theorem deletePaths_mem_mainRun (args : Args) (env : Env) (s : List String) (pf : Int) :
    Event.deletePaths s pf ∈ mainRun args env ↔
      reachesTransfer args env ∧ Event.deletePaths s pf ∈ runTransfer args env := by
  unfold mainRun abortTrace reachesTransfer
  cases hcfg : env.configOk <;> cases hnf : args.noFatsort <;>
    cases hra : env.rootAccess <;> cases hfa : env.fatsortAvailable <;>
      by_cases hdl : env.devLoc = "" <;> simp_all [List.mem_append]

/-- C1: when the deletion-policy configuration integer is 0, no source
path is deleted and no deletion prompt is issued — the `deletePaths`
call (the only deletion and the only deletion prompt site) never
appears in the trace — for every run, interactive or non-interactive. -/
theorem c1_policy_zero_never_deletes (args : Args) (env : Env)
    (h : env.deleteSources = 0) (s : List String) (pf : Int) :
    Event.deletePaths s pf ∉ mainRun args env := by
  rw [deletePaths_mem_mainRun, deletePaths_mem_runTransfer]
  simp [deleteSourcesStep, h]

/-- Witness for C1 at a concrete run. -/
theorem c1_policy_zero_never_deletes_witness :
    Event.deletePaths ["s1"] (-1) ∉
      mainRun ⟨["s1"], "/mnt/dev", false, false, false, false, false⟩
        ⟨true, 0, true, true, "/dev/sdb1", "/mnt/dev", [], true, true⟩ :=
  c1_policy_zero_never_deletes _ _ rfl ["s1"] (-1)

/-- C2 counterexample: a non-interactive run with deletion-policy
integer 2 that reaches cleanup, in which NO source path is deleted —
no `deletePaths` event occurs at all — refuting "every source path is
deleted unconditionally ... even in non-interactive mode".  (In the
code `promptFlag = 2 - 1 = 1` is truthy, so the
`not (non_interactive and promptFlag)` guard skips deletion.) -/
theorem c2_always_policy_counterexample :
    ((mainRun ⟨["s1"], "/mnt/dev", true, false, false, false, false⟩
        ⟨true, 2, true, true, "/dev/sdb1", "/mnt/dev", [], true, true⟩).all
      fun ev => !(isDeletePathsEvent ev)) = true := by
  decide

/-- C2 amended: with deletion-policy integer 2 the code treats the
policy as Prompt, not Always: in non-interactive runs no source path is
ever deleted, and in interactive runs that reach cleanup `deletePaths`
is invoked with prompt flag 1 (prompting enabled).  The integer that
deletes unconditionally is 1, not 2. -/
theorem c2_policy_two_is_prompt (args : Args) (env : Env)
    (h : env.deleteSources = 2) :
    (args.nonInteractive = true → ∀ s pf, Event.deletePaths s pf ∉ mainRun args env)
    ∧ (args.nonInteractive = false → reachesTransfer args env →
        Event.deletePaths args.sources 1 ∈ mainRun args env) := by
  constructor
  · intro hni s pf
    rw [deletePaths_mem_mainRun, deletePaths_mem_runTransfer]
    simp [deleteSourcesStep, h, hni]
  · intro hni hreach
    rw [deletePaths_mem_mainRun, deletePaths_mem_runTransfer]
    refine ⟨hreach, rfl, ?_⟩
    simp [deleteSourcesStep, h, hni]

/-- Witness for the amended C2 at concrete runs. -/
theorem c2_policy_two_is_prompt_witness :
    Event.deletePaths ["s1"] 1 ∈
      mainRun ⟨["s1"], "/mnt/dev", false, true, false, false, false⟩
        ⟨true, 2, false, false, "/dev/sdb1", "/mnt/dev", [], true, true⟩ :=
  (c2_policy_two_is_prompt _ _ rfl).2 rfl ⟨rfl, Or.inl rfl, by decide⟩

/-- C3 counterexample: a non-interactive run with deletion-policy
integer 1 that reaches cleanup DOES delete the source paths —
`deletePaths` is invoked (with prompt flag 0) — refuting "no source
path is deleted".  (In the code `promptFlag = 1 - 1 = 0` is falsy, so
the non-interactive guard does not suppress deletion.) -/
theorem c3_prompt_policy_counterexample :
    Event.deletePaths ["s1"] 0 ∈
      mainRun ⟨["s1"], "/mnt/dev", true, false, false, false, false⟩
        ⟨true, 1, true, true, "/dev/sdb1", "/mnt/dev", [], true, true⟩ := by
  decide

/-- C3 amended: with deletion-policy integer 1 the code treats the policy
as Always, not Prompt: on every run that reaches cleanup — interactive
or not — `deletePaths` is invoked with prompt flag 0 (no prompting), so
the sources ARE deleted.  The value that resolves to
"don't delete and don't ask" under non-interactive mode is 2. -/
theorem c3_policy_one_always_deletes (args : Args) (env : Env)
    (h : env.deleteSources = 1) (hreach : reachesTransfer args env) :
    Event.deletePaths args.sources 0 ∈ mainRun args env := by
  rw [deletePaths_mem_mainRun, deletePaths_mem_runTransfer]
  refine ⟨hreach, rfl, ?_⟩
  simp [deleteSourcesStep, h]

/-- Witness for the amended C3 at a concrete non-interactive run. -/
theorem c3_policy_one_always_deletes_witness :
    Event.deletePaths ["s1"] 0 ∈
      mainRun ⟨["s1"], "/mnt/dev", true, true, false, false, false⟩
        ⟨true, 1, false, false, "/dev/sdb1", "/mnt/dev", [], true, true⟩ :=
  c3_policy_one_always_deletes _ _ rfl ⟨rfl, Or.inl rfl, by decide⟩

/-- C4 counterexample: an interactive run with deletion-policy integer 1
invokes `deletePaths` with prompt flag 0 — prompting DISABLED (0 is
falsy in Python) — and with no other flag, refuting "invoked with
per-top-level-source-path prompting enabled when the integer is 1". -/
theorem c4_prompt_flag_counterexample :
    Event.deletePaths ["s1"] 0 ∈
      mainRun ⟨["s1"], "/mnt/dev", false, false, false, false, false⟩
        ⟨true, 1, true, true, "/dev/sdb1", "/mnt/dev", [], true, true⟩
    ∧ ((mainRun ⟨["s1"], "/mnt/dev", false, false, false, false, false⟩
        ⟨true, 1, true, true, "/dev/sdb1", "/mnt/dev", [], true, true⟩).all
      fun ev => !(isDeletePathsEvent ev)
                  || decide (ev = Event.deletePaths ["s1"] 0)) = true := by
  constructor <;> decide

/-- C4 amended: the prompt flags are the reverse of the claim — on an
interactive run that reaches cleanup, deletion-policy integer 2 invokes
`deletePaths` with prompt flag 1 (prompting requested), while integer 1
invokes it with prompt flag 0 (no prompting). -/
theorem c4_prompt_flags_swapped (args : Args) (env : Env)
    (hreach : reachesTransfer args env) (hni : args.nonInteractive = false) :
    (env.deleteSources = 2 → Event.deletePaths args.sources 1 ∈ mainRun args env)
    ∧ (env.deleteSources = 1 → Event.deletePaths args.sources 0 ∈ mainRun args env) := by
  constructor <;> intro h <;>
    rw [deletePaths_mem_mainRun, deletePaths_mem_runTransfer] <;>
    exact ⟨hreach, rfl, by simp [deleteSourcesStep, h, hni]⟩

/-- Witness for the amended C4 at a concrete interactive run with
deletion-policy integer 2. -/
theorem c4_prompt_flags_swapped_witness :
    Event.deletePaths ["s1"] 1 ∈
      mainRun ⟨["s1"], "/mnt/dev", false, true, false, false, false⟩
        ⟨true, 2, false, false, "/dev/sdb1", "/mnt/dev", [], true, true⟩ :=
  (c4_prompt_flags_swapped _ _ ⟨rfl, Or.inl rfl, by decide⟩ rfl).1 rfl

/-- The startup events of main.py before the transfer stages, on a run
that passes all fatal checks. -/
def startupPrefix (args : Args) : List Event :=
  Event.getConfig ::
    ((if args.noFatsort then [] else [Event.requestRoot, Event.checkFatsortAvailable])
      ++ [Event.findDeviceLocations])

theorem mainRun_eq_of_reaches (args : Args) (env : Env) (h : reachesTransfer args env) :
    mainRun args env = startupPrefix args ++ runTransfer args env := by
  obtain ⟨h1, h2, h3⟩ := h
  unfold mainRun startupPrefix abortTrace
  cases hnf : args.noFatsort
  · rcases h2 with h2 | ⟨hra, hfa⟩
    · simp_all
    · simp [h1, hra, hfa, h3]
  · simp [h1, h3]

theorem sublist_stages_delete (args : Args) (env : Env) (l : List Event)
    (h : List.Sublist l [Event.getCorrespondingPathsLists, Event.filterOutExtensions,
      Event.convertAudioFiles env.tmpFiles, Event.createDirectories, Event.copyFiles]) :
    List.Sublist (l ++ [Event.deleteFiles env.tmpFiles]) (runTransfer args env) := by
  unfold runTransfer
  refine List.Sublist.trans ?_ (List.sublist_append_left _ _)
  refine List.Sublist.trans ?_ (List.sublist_append_left _ _)
  exact (h.trans (List.sublist_append_left _ _)).append (List.Sublist.refl _)

theorem sublist_runTransfer_mainRun (args : Args) (env : Env) (l : List Event)
    (hreach : reachesTransfer args env) (h : List.Sublist l (runTransfer args env)) :
    List.Sublist l (mainRun args env) := by
  rw [mainRun_eq_of_reaches args env hreach]
  exact h.trans (List.sublist_append_right (startupPrefix args) _)

/-- Events that occur only in the transfer part of the run (after all
startup checks), never in the startup prefix or as an abort. -/
def isTransferEvent : Event → Bool
  | Event.getConfig => false
  | Event.abort _ => false
  | Event.requestRoot => false
  | Event.checkFatsortAvailable => false
  | Event.findDeviceLocations => false
  | _ => true

theorem transfer_event_mem_mainRun (args : Args) (env : Env) (e : Event)
    (he : isTransferEvent e = true) :
    e ∈ mainRun args env ↔ reachesTransfer args env ∧ e ∈ runTransfer args env := by
  unfold mainRun abortTrace reachesTransfer
  cases hcfg : env.configOk <;> cases hnf : args.noFatsort <;>
    cases hra : env.rootAccess <;> cases hfa : env.fatsortAvailable <;>
      by_cases hdl : env.devLoc = "" <;>
        simp_all [List.mem_append, isTransferEvent] <;>
          cases e <;> simp_all [isTransferEvent]

theorem convert_mem_runTransfer (args : Args) (env : Env) (ts : List String) :
    Event.convertAudioFiles ts ∈ runTransfer args env ↔ ts = env.tmpFiles := by
  unfold runTransfer abortTrace
  cases hstep : deleteSourcesStep args.nonInteractive env.deleteSources <;>
  cases harm : args.armin <;> cases hnf : args.noFatsort <;>
  cases huo : env.unmountOk <;> cases hfo : env.fatsortOk <;>
    simp_all [List.mem_append]

theorem deleteFiles_mem_runTransfer (args : Args) (env : Env) (ts : List String) :
    Event.deleteFiles ts ∈ runTransfer args env ↔ ts = env.tmpFiles := by
  unfold runTransfer abortTrace
  cases hstep : deleteSourcesStep args.nonInteractive env.deleteSources <;>
  cases harm : args.armin <;> cases hnf : args.noFatsort <;>
  cases huo : env.unmountOk <;> cases hfo : env.fatsortOk <;>
    simp_all [List.mem_append]

set_option maxHeartbeats 1000000 in
theorem runTransfer_counts (args : Args) (env : Env) :
    (runTransfer args env).count Event.filterOutExtensions = 1
    ∧ (runTransfer args env).count (Event.convertAudioFiles env.tmpFiles) = 1
    ∧ (runTransfer args env).count Event.createDirectories = 1
    ∧ (runTransfer args env).count Event.copyFiles = 1
    ∧ (runTransfer args env).count (Event.deleteFiles env.tmpFiles) = 1 := by
  unfold runTransfer abortTrace
  cases hstep : deleteSourcesStep args.nonInteractive env.deleteSources <;>
  cases harm : args.armin <;> cases hnf : args.noFatsort <;>
  cases huo : env.unmountOk <;> cases hfo : env.fatsortOk <;>
    simp [List.count_cons, List.count_append]

theorem startupPrefix_counts (args : Args) (env : Env) :
    (startupPrefix args).count Event.filterOutExtensions = 0
    ∧ (startupPrefix args).count (Event.convertAudioFiles env.tmpFiles) = 0
    ∧ (startupPrefix args).count Event.createDirectories = 0
    ∧ (startupPrefix args).count Event.copyFiles = 0
    ∧ (startupPrefix args).count (Event.deleteFiles env.tmpFiles) = 0 := by
  unfold startupPrefix
  cases hnf : args.noFatsort <;> simp [List.count_cons, List.count_append]

theorem runTransfer_eq_parts (args : Args) (env : Env) :
    runTransfer args env =
      ((([Event.getCorrespondingPathsLists, Event.filterOutExtensions,
          Event.convertAudioFiles env.tmpFiles, Event.createDirectories,
          Event.copyFiles]
        ++ (if args.armin then [Event.arminRename] else []))
        ++ [Event.deleteFiles env.tmpFiles])
        ++ (match deleteSourcesStep args.nonInteractive env.deleteSources with
            | some pf => [Event.deletePaths args.sources pf]
            | none => []))
        ++ (if args.noFatsort then [Event.done]
            else
              Event.unmount ::
                (if env.unmountOk then
                  Event.fatsort ::
                    (if env.fatsortOk then [Event.done] else abortTrace 1)
                else abortTrace 1)) := rfl

/-- C5: on every run that completes the copy stage, the very list of
temporary files returned by `convertAudioFiles` is the one passed to
`deleteFiles` after `copyFiles` (so no temp file is left out of the
deletion call): the trace contains conversion, copy and temp-deletion in
that order with the same temp list, and every temp list returned by the
conversion event is passed to a deletion event. -/
theorem c5_temp_files_all_deleted (args : Args) (env : Env)
    (hreach : reachesTransfer args env) :
    List.Sublist
      [Event.convertAudioFiles env.tmpFiles, Event.copyFiles,
       Event.deleteFiles env.tmpFiles] (mainRun args env)
    ∧ ∀ ts, Event.convertAudioFiles ts ∈ mainRun args env →
        Event.deleteFiles ts ∈ mainRun args env := by
  constructor
  · refine sublist_runTransfer_mainRun args env _ hreach
      (sublist_stages_delete args env
        [Event.convertAudioFiles env.tmpFiles, Event.copyFiles] ?_)
    exact (((((List.Sublist.refl []).cons₂ Event.copyFiles).cons
      Event.createDirectories).cons₂ (Event.convertAudioFiles env.tmpFiles)).cons
        Event.filterOutExtensions).cons Event.getCorrespondingPathsLists
  · intro ts hmem
    have h1 := (transfer_event_mem_mainRun args env
      (Event.convertAudioFiles ts) rfl).mp hmem
    have hts := (convert_mem_runTransfer args env ts).mp h1.2
    subst hts
    exact (transfer_event_mem_mainRun args env
      (Event.deleteFiles env.tmpFiles) rfl).mpr
      ⟨hreach, (deleteFiles_mem_runTransfer args env _).mpr rfl⟩

/-- Witness for C5 at a concrete run with two temp files. -/
theorem c5_temp_files_all_deleted_witness :
    List.Sublist
      [Event.convertAudioFiles ["tmp1.mp3", "tmp2.mp3"], Event.copyFiles,
       Event.deleteFiles ["tmp1.mp3", "tmp2.mp3"]]
      (mainRun ⟨["s1"], "/mnt/dev", false, true, false, false, false⟩
        ⟨true, 0, false, false, "/dev/sdb1", "/mnt/dev", ["tmp1.mp3", "tmp2.mp3"],
         true, true⟩) :=
  (c5_temp_files_all_deleted ⟨["s1"], "/mnt/dev", false, true, false, false, false⟩
    ⟨true, 0, false, false, "/dev/sdb1", "/mnt/dev", ["tmp1.mp3", "tmp2.mp3"],
     true, true⟩ ⟨rfl, Or.inl rfl, by decide⟩).1

/-- C6: on every run that passes the startup checks, the five transfer
stages appear in the trace in the fixed order filter → convert → create
directories → copy → temp-file cleanup (a sublist of the sequential
trace), and each stage call occurs exactly once, so in this
single-threaded trace no stage begins before the previous one has
returned. -/
theorem c6_stages_fixed_order (args : Args) (env : Env)
    (hreach : reachesTransfer args env) :
    List.Sublist
      [Event.filterOutExtensions, Event.convertAudioFiles env.tmpFiles,
       Event.createDirectories, Event.copyFiles, Event.deleteFiles env.tmpFiles]
      (mainRun args env)
    ∧ (mainRun args env).count Event.filterOutExtensions = 1
    ∧ (mainRun args env).count (Event.convertAudioFiles env.tmpFiles) = 1
    ∧ (mainRun args env).count Event.createDirectories = 1
    ∧ (mainRun args env).count Event.copyFiles = 1
    ∧ (mainRun args env).count (Event.deleteFiles env.tmpFiles) = 1 := by
  obtain ⟨hrt1, hrt2, hrt3, hrt4, hrt5⟩ := runTransfer_counts args env
  obtain ⟨hs1, hs2, hs3, hs4, hs5⟩ := startupPrefix_counts args env
  refine ⟨?_, ?_, ?_, ?_, ?_, ?_⟩
  · refine sublist_runTransfer_mainRun args env _ hreach ?_
    exact sublist_stages_delete args env _ ((List.Sublist.refl _).cons _)
  all_goals rw [mainRun_eq_of_reaches args env hreach, List.count_append]; omega

/-- Witness for C6 at a concrete run. -/
theorem c6_stages_fixed_order_witness :
    List.Sublist
      [Event.filterOutExtensions, Event.convertAudioFiles ["t.mp3"],
       Event.createDirectories, Event.copyFiles, Event.deleteFiles ["t.mp3"]]
      (mainRun ⟨["s1"], "/mnt/dev", false, true, false, false, false⟩
        ⟨true, 0, false, false, "/dev/sdb1", "/mnt/dev", ["t.mp3"], true, true⟩) :=
  (c6_stages_fixed_order ⟨["s1"], "/mnt/dev", false, true, false, false, false⟩
    ⟨true, 0, false, false, "/dev/sdb1", "/mnt/dev", ["t.mp3"], true, true⟩
    ⟨rfl, Or.inl rfl, by decide⟩).1

/-- C8: both driver-observable fatal errors — configuration file
unreadable (`getConfigurationSettings` falsy) and no FAT device found
(`findDeviceLocations` returning an empty device string) — end the run
with exit status 1 (the trace ends in `abort 1`) before any plan
computation, filtering, conversion or copying event occurs. -/
theorem c8_fatal_aborts_before_plan (args : Args) (env : Env)
    (h : env.configOk = false ∨ env.devLoc = "") :
    (mainRun args env).getLast? = some (Event.abort 1)
    ∧ Event.getCorrespondingPathsLists ∉ mainRun args env
    ∧ Event.filterOutExtensions ∉ mainRun args env
    ∧ (∀ ts, Event.convertAudioFiles ts ∉ mainRun args env)
    ∧ Event.copyFiles ∉ mainRun args env := by
  unfold mainRun abortTrace
  cases hcfg : env.configOk <;> cases hnf : args.noFatsort <;>
    cases hra : env.rootAccess <;> cases hfa : env.fatsortAvailable <;>
      rcases h with h | h <;> simp_all

/-- Witness for C8 at a concrete run whose configuration read fails. -/
theorem c8_fatal_aborts_before_plan_witness :
    (mainRun ⟨["s1"], "/mnt/dev", false, false, false, false, false⟩
      ⟨false, 0, true, true, "/dev/sdb1", "/mnt/dev", [], true, true⟩).getLast?
      = some (Event.abort 1) :=
  (c8_fatal_aborts_before_plan ⟨["s1"], "/mnt/dev", false, false, false, false, false⟩
    ⟨false, 0, true, true, "/dev/sdb1", "/mnt/dev", [], true, true⟩ (Or.inl rfl)).1

set_option maxHeartbeats 1000000 in
/-- C9: with the no-fatsort flag set, the run never requests root access,
never checks fatsort availability and never invokes unmount or fatsort —
on any run, aborted or not — while the five transfer stages still run in
order whenever the remaining startup checks (configuration read, device
discovery) succeed. -/
theorem c9_no_fatsort_flag (args : Args) (env : Env) (h : args.noFatsort = true) :
    (Event.requestRoot ∉ mainRun args env
      ∧ Event.checkFatsortAvailable ∉ mainRun args env
      ∧ Event.unmount ∉ mainRun args env
      ∧ Event.fatsort ∉ mainRun args env)
    ∧ (env.configOk = true → env.devLoc ≠ "" →
        List.Sublist
          [Event.getCorrespondingPathsLists, Event.filterOutExtensions,
           Event.convertAudioFiles env.tmpFiles, Event.createDirectories,
           Event.copyFiles, Event.deleteFiles env.tmpFiles] (mainRun args env)) := by
  constructor
  · unfold mainRun runTransfer abortTrace
    cases hcfg : env.configOk <;> by_cases hdl : env.devLoc = "" <;>
      cases hstep : deleteSourcesStep args.nonInteractive env.deleteSources <;>
        cases harm : args.armin <;> simp_all [List.mem_append]
  · intro hcfg hdl
    refine sublist_runTransfer_mainRun args env _ ⟨hcfg, Or.inl h, hdl⟩ ?_
    exact sublist_stages_delete args env _ (List.Sublist.refl _)

/-- Witness for C9 at a concrete no-fatsort run. -/
theorem c9_no_fatsort_flag_witness :
    List.Sublist
      [Event.getCorrespondingPathsLists, Event.filterOutExtensions,
       Event.convertAudioFiles ["t.mp3"], Event.createDirectories,
       Event.copyFiles, Event.deleteFiles ["t.mp3"]]
      (mainRun ⟨["s1"], "/mnt/dev", false, true, false, false, false⟩
        ⟨true, 0, false, false, "/dev/sdb1", "/mnt/dev", ["t.mp3"], true, true⟩) :=
  (c9_no_fatsort_flag ⟨["s1"], "/mnt/dev", false, true, false, false, false⟩
    ⟨true, 0, false, false, "/dev/sdb1", "/mnt/dev", ["t.mp3"], true, true⟩
    rfl).2 rfl (by decide)

/-- C10: on every fatsorting run that reaches cleanup, the temp-file
deletion (and any source deletion) precedes the unmount call, and the
fatsort call when it happens; if unmount fails, or unmount succeeds and
fatsort fails, the run ends with `abort 1` — after the deletions have
already been performed. -/
theorem c10_deletions_before_unmount (args : Args) (env : Env)
    (hnf : args.noFatsort = false) (hreach : reachesTransfer args env) :
    List.Sublist [Event.deleteFiles env.tmpFiles, Event.unmount] (mainRun args env)
    ∧ (∀ s pf, Event.deletePaths s pf ∈ mainRun args env →
        List.Sublist [Event.deletePaths s pf, Event.unmount] (mainRun args env))
    ∧ (env.unmountOk = true →
        List.Sublist [Event.deleteFiles env.tmpFiles, Event.fatsort] (mainRun args env))
    ∧ (env.unmountOk = false →
        (mainRun args env).getLast? = some (Event.abort 1))
    ∧ (env.unmountOk = true → env.fatsortOk = false →
        (mainRun args env).getLast? = some (Event.abort 1)) := by
  have hmain := mainRun_eq_of_reaches args env hreach
  have hparts := runTransfer_eq_parts args env
  refine ⟨?_, ?_, ?_, ?_, ?_⟩
  · rw [hmain, hparts]
    refine List.Sublist.trans ?_ (List.sublist_append_right (startupPrefix args) _)
    show List.Sublist ([Event.deleteFiles env.tmpFiles] ++ [Event.unmount]) _
    refine List.Sublist.append ?_ ?_
    · refine List.singleton_sublist.mpr ?_
      simp
    · refine List.singleton_sublist.mpr ?_
      simp [hnf]
  · intro s pf hmem
    obtain ⟨hr, hmemRT⟩ := (deletePaths_mem_mainRun args env s pf).mp hmem
    obtain ⟨hs, hstep⟩ := (deletePaths_mem_runTransfer args env s pf).mp hmemRT
    rw [hmain, hparts]
    refine List.Sublist.trans ?_ (List.sublist_append_right (startupPrefix args) _)
    show List.Sublist ([Event.deletePaths s pf] ++ [Event.unmount]) _
    refine List.Sublist.append ?_ ?_
    · refine List.singleton_sublist.mpr ?_
      simp [hs, hstep]
    · refine List.singleton_sublist.mpr ?_
      simp [hnf]
  · intro huo
    rw [hmain, hparts]
    refine List.Sublist.trans ?_ (List.sublist_append_right (startupPrefix args) _)
    show List.Sublist ([Event.deleteFiles env.tmpFiles] ++ [Event.fatsort]) _
    refine List.Sublist.append ?_ ?_
    · refine List.singleton_sublist.mpr ?_
      simp
    · refine List.singleton_sublist.mpr ?_
      simp [hnf, huo]
  · intro huo
    rw [hmain, hparts]
    rw [List.getLast?_append_of_ne_nil, List.getLast?_append_of_ne_nil]
    · simp [hnf, huo, abortTrace, List.getLast?]
    · simp [hnf, huo, abortTrace]
    · simp [hnf, huo, abortTrace]
  · intro huo hfo
    rw [hmain, hparts]
    rw [List.getLast?_append_of_ne_nil, List.getLast?_append_of_ne_nil]
    · simp [hnf, huo, hfo, abortTrace, List.getLast?]
    · simp [hnf, huo, hfo, abortTrace]
    · simp [hnf, huo, hfo, abortTrace]

/-- Witness for C10 at a concrete fatsorting run whose unmount fails. -/
theorem c10_deletions_before_unmount_witness :
    List.Sublist [Event.deleteFiles ["t.mp3"], Event.unmount]
      (mainRun ⟨["s1"], "/mnt/dev", false, false, false, false, false⟩
        ⟨true, 0, true, true, "/dev/sdb1", "/mnt/dev", ["t.mp3"], false, true⟩) :=
  (c10_deletions_before_unmount
    ⟨["s1"], "/mnt/dev", false, false, false, false, false⟩
    ⟨true, 0, true, true, "/dev/sdb1", "/mnt/dev", ["t.mp3"], false, true⟩
    rfl ⟨rfl, Or.inr ⟨rfl, rfl⟩, by decide⟩).1

namespace transfer

/-- Modelled from the spec: a source path as consumed by
`transfer.getCorrespondingPathsLists` (transfat/transfer.py, not under
src/) — either a regular file, or a directory whose recursive walk
yields the given relative file paths in stable (lexicographic) order. -/
inductive Source where
  | file (path : String)
  | dir (path : String) (relFiles : List String)
  deriving DecidableEq, Repr

/-- The final path component of a path. -/
def basename (p : String) : String :=
  (p.splitOn "/").getLastD ""

/-- The enclosing directory of a relative path ("" when the path has a
single component). -/
def dirname (p : String) : String :=
  String.intercalate "/" (p.splitOn "/").dropLast

/-- Modelled from the spec: the (source file, destination file) pairs one
source path contributes — a regular file maps to
destinationRoot/basename(source); a file at relative path rel under a
directory source maps to destinationRoot/basename(sourceDir)/rel. -/
def pathPairs (dest : String) : Source → List (String × String)
  | Source.file p => [(p, dest ++ "/" ++ basename p)]
  | Source.dir p rels =>
      rels.map fun rel => (p ++ "/" ++ rel, dest ++ "/" ++ basename p ++ "/" ++ rel)

/-- Modelled from the spec: the destination directories one source path
requires. -/
def requiredDirs (dest : String) : Source → List String
  | Source.file _ => [dest]
  | Source.dir p rels =>
      rels.map fun rel =>
        let d := dirname rel
        if d = "" then dest ++ "/" ++ basename p
        else dest ++ "/" ++ basename p ++ "/" ++ d

/-- Modelled from the spec: `transfer.getCorrespondingPathsLists`
(transfat/transfer.py, not under src/), returning the quadruple main.py
destructures as `_, fromFiles, toDirs, toFiles`: the source directories,
the parallel lists of source files and destination files, and the
deduplicated required destination directories in order of first
appearance. -/
def getCorrespondingPathsLists (sources : List Source) (dest : String) :
    List String × List String × List String × List String :=
  let pairs := (sources.map (pathPairs dest)).flatten
  ((sources.filterMap fun s =>
      match s with
      | Source.dir p _ => some p
      | Source.file _ => none),
   pairs.map Prod.fst,
   ((sources.map (requiredDirs dest)).flatten).eraseDups,
   pairs.map Prod.snd)

/-- Modelled from the spec: `transfer.filterOutExtensions`
(transfat/transfer.py, not under src/) — removes, from both parallel
lists in lockstep, exactly the entries whose destination file the
configured policy (extension exclusion plus prompt resolution,
abstracted as the per-entry decision `removeEntry`) removes. -/
def filterOutExtensions (removeEntry : String → Bool)
    (fromFiles toFiles : List String) : List String × List String :=
  ((fromFiles.zip toFiles).filter fun pr => !(removeEntry pr.2)).unzip

/-- Modelled from the spec: `transfer.convertAudioFiles`
(transfat/transfer.py, not under src/) — for every entry whose source
file a conversion rule applies to (abstracted as `convertsTo`, giving
the temp file the external converter produces), rewrites the
destination entry to the temp file's path and records the temp file;
entries are neither added nor removed.  Returns the rewritten
destination list and the temp-file list. -/
def convertAudioFiles (convertsTo : String → Option String)
    (fromFiles toFiles : List String) : List String × List String :=
  (((fromFiles.zip toFiles).map fun pr =>
      match convertsTo pr.1 with
      | some tmp => tmp
      | none => pr.2),
   fromFiles.filterMap convertsTo)

end transfer

/-- C7: for all sources and destination root, the parallel lists
`fromFiles` and `toFiles` of the computed plan have equal length after
`getCorrespondingPathsLists`, and the equality is preserved by the
extension-filtering mutation (lockstep removal) and by the
audio-conversion mutation (in-place rewriting). -/
theorem c7_parallel_lists_equal_length (sources : List transfer.Source)
    (dest : String) (removeEntry : String → Bool)
    (convertsTo : String → Option String) :
    let plan := transfer.getCorrespondingPathsLists sources dest
    let fromFiles := plan.2.1
    let toFiles := plan.2.2.2
    let filtered := transfer.filterOutExtensions removeEntry fromFiles toFiles
    let converted := transfer.convertAudioFiles convertsTo filtered.1 filtered.2
    fromFiles.length = toFiles.length
    ∧ filtered.1.length = filtered.2.length
    ∧ converted.1.length = filtered.1.length := by
  refine ⟨?_, ?_, ?_⟩
  · simp only [transfer.getCorrespondingPathsLists, List.length_map]
  · simp [transfer.filterOutExtensions, List.unzip_eq_map]
  · have h : (transfer.filterOutExtensions removeEntry
        (transfer.getCorrespondingPathsLists sources dest).2.1
        (transfer.getCorrespondingPathsLists sources dest).2.2.2).1.length
        = (transfer.filterOutExtensions removeEntry
        (transfer.getCorrespondingPathsLists sources dest).2.1
        (transfer.getCorrespondingPathsLists sources dest).2.2.2).2.length := by
      simp [transfer.filterOutExtensions, List.unzip_eq_map]
    simp only [transfer.convertAudioFiles, List.length_map, List.length_zip]
    omega
